import Mathlib

/-!
Verification development for the PyChess rules engine
(src/src/board.py, src/src/display.py, src/src/pgn.py).

The Python classes are shallowly embedded as Lean structures and pure
functions.  Mutation of the shared board grid is modelled by explicit
state passing: a Python method that mutates `self` becomes a function
`Board → ... → Board`.  Machine integers are `Nat`/`Int` (Python ints are
unbounded, so no wrap-around modelling is needed).  `IndexError`-style
fallible list access is modelled with `Option`.
-/

namespace PyChess

/-- `FILES` from constants.py: columns on a chess board. -/
def FILES : Nat := 8

/-- `RANKS` from constants.py: rows on a chess board. -/
def RANKS : Nat := 8

/-- `Colour` from utils.py: WHITE = 0, BLACK = 1. -/
inductive Colour where
  | white
  | black
deriving DecidableEq

/-- `Colour.value` (0 for white, 1 for black). -/
def Colour.val : Colour → Nat
  | .white => 0
  | .black => 1

/-- `(Colour.BLACK, Colour.WHITE)[self.turn.value]`: the opposing colour. -/
def Colour.opponent : Colour → Colour
  | .white => .black
  | .black => .white

/-- `Pieces` from utils.py: the six piece kinds. -/
inductive Pieces where
  | pawn
  | knight
  | bishop
  | rook
  | queen
  | king
deriving DecidableEq

/-- `Piece` from pieces.py: colour, type, promoted flag.  Python pieces are
compared by `__dict__`, which includes a per-object image surface, so two
distinct piece objects never compare equal; the field `pid` models that
object identity (every piece object of a game gets a distinct `pid`). -/
structure Piece where
  pid : Nat
  type : Pieces
  colour : Colour
  promoted : Bool
deriving DecidableEq

/-- `Square` from board.py: file, rank and optional occupant.  Python
`Square.__eq__` compares file, rank and piece by value, which the derived
`DecidableEq` mirrors. -/
structure Square where
  file : Nat
  rank : Nat
  piece : Option Piece
deriving DecidableEq

/-- `Square.empty`. -/
def Square.empty (s : Square) : Bool := s.piece.isNone

/-- `Move` from board.py lines 17-32: before/after snapshots of the two
squares and the three special flags the dataclass declares, extended
(fields `check` and `checkmate`).
Modelled from the spec: the `Move` record's `is_check`/`is_checkmate`
flags are passed by `DisplayBoard.make_move` (display.py lines 264-280)
and read by pgn.py (`move.check`, `move.checkmate`), but the dataclass in
the staged src/src/board.py does not declare them; the spec's data model
(section 3) lists all five flags, so the two extra fields are modelled
from the spec here. -/
structure MoveRec where
  fromBefore : Square
  toBefore : Square
  fromAfter : Square
  toAfter : Square
  castling : Bool
  enPassant : Bool
  promotion : Bool
  check : Bool
  checkmate : Bool
deriving DecidableEq

/-- `repr(piece)` from pieces.py: unique letter plus colour value,
used in position recordings. -/
def uniqueLetter : Pieces → String
  | .pawn => "p"
  | .knight => "n"
  | .bishop => "b"
  | .rook => "r"
  | .queen => "q"
  | .king => "k"

/-- `Piece.__repr__`: unique letter followed by the colour's value. -/
def pieceRepr (p : Piece) : String := uniqueLetter p.type ++ toString p.colour.val

/-- One recorded position descriptor, as built by `Board.record_position`:
the turn value, the 64 squares' occupant representations in iteration
order, and the per-piece move lists.  The code stores a sha256 of this
descriptor purely to save memory; the descriptor itself is kept here. -/
abbrev PosState := Nat × List (Option String) × List (String × List (Nat × Nat))

/-- The state of `Board` from board.py: the grid (occupant by file and
rank; the Python nested list `self.board` is row-major from rank 7 down,
and `Board.get` translates, so a function from file and rank is the same
data), the turn, the test-move flag, the move history, the captured-piece
tallies (`self.captured`: a dict of dicts of counters; modelled as a total
function — the Python dict only holds the keys pawn/knight/bishop/rook/
queen, king is never a key), the piece points, the recorded position
descriptors (`self.position_counts` as a multiset: the count of a key is
its number of occurrences), and `self.current_moves` as an association
list keyed by piece (Python keys pieces by object identity, and every
occupied square holds a distinct object, so an association list in
iteration order is the same mapping). -/
structure Board where
  grid : Nat → Nat → Option Piece
  turn : Colour
  testMove : Bool
  moves : List MoveRec
  captured : Colour → Pieces → Nat
  piecePoints : Colour → Nat
  positionCounts : List PosState
  currentMoves : List (Piece × List Square)

/-- `Board.get`: the square at a particular file and rank (as a live
square value: coordinates plus current occupant). -/
def Board.get (b : Board) (file rank : Nat) : Square :=
  ⟨file, rank, b.grid file rank⟩

/-- Writing `square.piece = p` for the square at (file, rank). -/
def Board.setPiece (b : Board) (file rank : Nat) (p : Option Piece) : Board :=
  { b with grid := fun f r => if f = file ∧ r = rank then p else b.grid f r }

/-- `Board.__iter__`: `product(range(FILES), range(RANKS))`, file-major. -/
def iterSquares : List (Nat × Nat) :=
  (List.range FILES).flatMap fun f => (List.range RANKS).map fun r => (f, r)

/-- `Board.is_en_passant` (board.py lines 214-227).  The Python code reads
`square.piece.type` on the live square; an empty source square (never
passed by any call site) is modelled as `false`. -/
def isEnPassant (b : Board) (sf sr mf _mr : Nat) : Bool :=
  match b.grid sf sr with
  | none => false
  | some p =>
    if p.type ≠ Pieces.pawn ∨ b.moves.isEmpty then false
    else
      let rank := if b.turn = Colour.white then RANKS - 3 - 1 else 3
      if sr ≠ rank then false
      else
        match b.moves.getLast? with
        | none => false
        | some prev =>
          (match prev.fromBefore.piece with
            | some q => decide (q.type = Pieces.pawn)
            | none => false)
          && decide (prev.fromBefore.file = mf)
          && decide (prev.toBefore.rank = rank)
          && decide (((prev.fromBefore.rank : Int) - prev.toBefore.rank).natAbs = 2)

/-- `Board.is_promotion` (board.py lines 229-232). -/
def isPromotion (b : Board) (sf sr _mf mr : Nat) : Bool :=
  match b.grid sf sr with
  | none => false
  | some p => decide (p.type = Pieces.pawn) && (decide (mr = 0) || decide (mr = RANKS - 1))

/-- `self.moves[self.turn.value::2]`: every other element starting at
the given offset (drop the offset first, then take indices 0, 2, 4...). -/
def everyOther {α : Type} : List α → List α
  | [] => []
  | [a] => [a]
  | a :: _ :: rest => a :: everyOther rest

/-- The square at the coordinate pair is empty (`square.empty` read off
the grid — the squares the generators test are live board squares). -/
def emptyAt (b : Board) (fr : Nat × Nat) : Bool := (b.grid fr.1 fr.2).isNone

/-- The square at the coordinate pair holds an opponent piece
(`(not move.empty) and move.piece.colour != self.turn`). -/
def oppAt (b : Board) (fr : Nat × Nat) : Bool :=
  match b.grid fr.1 fr.2 with
  | some q => decide (q.colour ≠ b.turn)
  | none => false

/-- The coordinates `Board.get_pawn_moves` (board.py lines 517-552)
collects before its final `filter_possible_moves` call: forward one,
forward two from the home rank, then the two diagonal captures (plain
or en passant), in the source's append order. -/
def pawnPseudoCoords (b : Board) (sf sr : Nat) : List (Nat × Nat) :=
  let forward : Nat × Nat :=
    if b.turn = Colour.white then (sf, sr + 1) else (sf, sr - 1)
  let forwardTwo : Option (Nat × Nat) :=
    if b.turn = Colour.white then
      (if sr = 1 then some (sf, sr + 2) else none)
    else
      (if sr = RANKS - 2 then some (sf, sr - 2) else none)
  let left : Option (Nat × Nat) :=
    if b.turn = Colour.white then
      (if sf > 0 then some (sf - 1, sr + 1) else none)
    else
      (if sf < FILES - 1 then some (sf + 1, sr - 1) else none)
  let right : Option (Nat × Nat) :=
    if b.turn = Colour.white then
      (if sf < FILES - 1 then some (sf + 1, sr + 1) else none)
    else
      (if sf > 0 then some (sf - 1, sr - 1) else none)
  let forwardPart : List (Nat × Nat) :=
    if emptyAt b forward then
      forward ::
        (match forwardTwo with
          | some f2 => if emptyAt b f2 then [f2] else []
          | none => [])
    else []
  let capturePart : List (Nat × Nat) :=
    [left, right].filterMap fun mv =>
      match mv with
      | none => none
      | some m => if oppAt b m || isEnPassant b sf sr m.1 m.2 then some m else none
  forwardPart ++ capturePart

/-- `Board.get_pawn_moves` candidates as live squares. -/
def pawnPseudo (b : Board) (sf sr : Nat) : List Square :=
  (pawnPseudoCoords b sf sr).map fun fr => b.get fr.1 fr.2

/-- The knight's 8 shift pairs: `product((-2, -1, 1, 2), repeat=2)`
filtered to exclude the diagonal (equal absolute value) pairs, in
product order. -/
def knightShifts : List (Int × Int) :=
  [(-2, -1), (-2, 1), (-1, -2), (-1, 2), (1, -2), (1, 2), (2, -1), (2, 1)]

/-- The coordinates `Board.get_knight_moves` (board.py lines 554-569)
collects before its final `filter_possible_moves` call. -/
def knightPseudoCoords (b : Board) (sf sr : Nat) : List (Nat × Nat) :=
  knightShifts.filterMap fun fr =>
    let file : Int := (sf : Int) + fr.1
    let rank : Int := (sr : Int) + fr.2
    if 0 ≤ file ∧ file < (FILES : Int) ∧ 0 ≤ rank ∧ rank < (RANKS : Int) then
      let m := (file.toNat, rank.toNat)
      if emptyAt b m || oppAt b m then some m else none
    else none

/-- `Board.get_knight_moves` candidates as live squares. -/
def knightPseudo (b : Board) (sf sr : Nat) : List Square :=
  (knightPseudoCoords b sf sr).map fun fr => b.get fr.1 fr.2

/-- One direction of `Board._get_straight_line_moves`: step `n` grows
from 1, `steps` counts the remaining iterations of
`range(1, max_distance + 1)`; stop at the board edge, include an
opponent-occupied square and stop, stop before an own-occupied square. -/
def rayCoords (b : Board) (sf sr : Nat) (df dr : Int) : Nat → Nat → List (Nat × Nat)
  | 0, _ => []
  | steps + 1, n =>
    let file : Int := (sf : Int) + df * n
    let rank : Int := (sr : Int) + dr * n
    if 0 ≤ file ∧ file < (FILES : Int) ∧ 0 ≤ rank ∧ rank < (RANKS : Int) then
      let m := (file.toNat, rank.toNat)
      match b.grid m.1 m.2 with
      | none => m :: rayCoords b sf sr df dr steps (n + 1)
      | some q => if q.colour ≠ b.turn then [m] else []
    else []

/-- The candidate list built by `Board._get_straight_line_moves`
(board.py lines 571-594) before its final `filter_possible_moves` call,
as live squares. -/
def straightLinePseudo (b : Board) (sf sr : Nat) (shifts : List (Int × Int))
    (maxDistance : Nat) : List Square :=
  (shifts.flatMap fun fr => rayCoords b sf sr fr.1 fr.2 maxDistance 1).map
    fun fr => b.get fr.1 fr.2

/-- Bishop directions: `product((-1, 1), repeat=2)` in product order. -/
def bishopShifts : List (Int × Int) := [(-1, -1), (-1, 1), (1, -1), (1, 1)]

/-- Rook directions: the pairs from `product((-1, 0, 1), repeat=2)` with
exactly one zero, in product order. -/
def rookShifts : List (Int × Int) := [(-1, 0), (0, -1), (0, 1), (1, 0)]

/-- King directions: the pairs from `product((-1, 0, 1), repeat=2)` that
are not both zero, in product order. -/
def kingShifts : List (Int × Int) :=
  [(-1, -1), (-1, 0), (-1, 1), (0, -1), (0, 1), (1, -1), (1, 0), (1, 1)]

/-- The unfiltered candidate moves of a piece of the given type.  This is
exactly what the `get_*_moves` methods return when `self.test_move` is
set: `filter_possible_moves` then returns its input unchanged, and
`get_king_moves` skips the castling branch. -/
def pseudoMovesFor (b : Board) (sf sr : Nat) : Pieces → List Square
  | .pawn => pawnPseudo b sf sr
  | .knight => knightPseudo b sf sr
  | .bishop => straightLinePseudo b sf sr bishopShifts (FILES - 1)
  | .rook => straightLinePseudo b sf sr rookShifts (FILES - 1)
  | .queen =>
    straightLinePseudo b sf sr bishopShifts (FILES - 1)
      ++ straightLinePseudo b sf sr rookShifts (FILES - 1)
  | .king => straightLinePseudo b sf sr kingShifts 1

/-- `Board.get_all_moves` as it behaves while `self.test_move` is set
(the only way `legal_move`, `is_check` and `any_square_under_attack` call
it): the concatenation of every current-colour piece's unfiltered
candidate moves, in board iteration order. -/
def getAllMovesTest (b : Board) : List Square :=
  iterSquares.flatMap fun fr =>
    match b.grid fr.1 fr.2 with
    | some p => if p.colour = b.turn then pseudoMovesFor b fr.1 fr.2 p.type else []
    | none => []

/-- `Board.any_square_under_attack` (board.py lines 272-284): set test
mode, flip the turn, regenerate the opponent's candidate moves, and test
membership (Python `in`, i.e. square value equality). -/
def anySquareUnderAttack (b : Board) (squares : List Square) : Bool :=
  let st : Board := { b with testMove := true, turn := b.turn.opponent }
  let opponentMoves := getAllMovesTest st
  squares.any fun s => opponentMoves.any fun q => decide (q = s)

/-- `Board.is_castling` (board.py lines 234-270).  An empty source square
(never passed by any call site; Python would raise) is modelled as
`false`. -/
def isCastling (b : Board) (sf sr mf _mr : Nat) (validate : Bool) : Bool :=
  match b.grid sf sr with
  | none => false
  | some kp =>
    if ¬(kp.type = Pieces.king ∧ ((mf : Int) - (sf : Int)).natAbs = 2) then false
    else if ¬validate then true
    else
      let kingside := mf = 6
      let rookFile := if kingside then FILES - 1 else 0
      match b.grid rookFile sr with
      | none => false
      | some rp =>
        if ¬(rp.type = Pieces.rook ∧ rp.colour = b.turn) then false
        else if (everyOther (b.moves.drop b.turn.val)).any
            (fun mv => decide (mv.fromBefore.piece = some kp)
              || decide (mv.fromBefore.piece = some rp)) then false
        else
          let corridor : List Nat := if kingside then [5, 6] else [1, 2, 3]
          if corridor.any (fun f => !(b.get f sr).empty) then false
          else
            let checkFiles : List Nat := if kingside then [4, 5] else [3, 4]
            !anySquareUnderAttack b (checkFiles.map fun f => b.get f sr)

/-- A castling-shaped move: `is_castling(square, move, validate=False)`. -/
def isCastlingShape (b : Board) (sf sr mf mr : Nat) : Bool :=
  isCastling b sf sr mf mr false

/-- The board state on which `Board.legal_move` (board.py lines 163-212)
generates the opponent's replies: the en-passant victim removed, the
castling rook relocated, the moving piece relocated from (sf, sr) to
(mf, mr), the turn flipped and the test flag set, in the source's
mutation order. -/
def simState (b : Board) (sf sr mf mr : Nat) : Board :=
  let isEp := isEnPassant b sf sr mf mr
  let isCast := isCastlingShape b sf sr mf mr
  let kingside := mf = 6
  let rookFile := if kingside then FILES - 1 else 0
  let newRookFile := if kingside then 5 else 3
  let b1 := if isEp then b.setPiece mf sr none else b
  let rookPiece := b1.grid rookFile sr
  let b2 := if isCast then b1.setPiece rookFile sr none else b1
  let originalPiece := b2.grid sf sr
  let b3 := b2.setPiece sf sr none
  let b4 := b3.setPiece mf mr originalPiece
  let b5 := if isCast then b4.setPiece newRookFile sr rookPiece else b4
  { b5 with turn := b5.turn.opponent, testMove := true }

/-- The boolean result of `Board.legal_move`: on the simulated state, no
opponent candidate move lands on a square occupied by a king. -/
def legalMove (b : Board) (sf sr mf mr : Nat) : Bool :=
  (getAllMovesTest (simState b sf sr mf mr)).all fun q =>
    match q.piece with
    | none => true
    | some p => decide (p.type ≠ Pieces.king)

/-- The board state `Board.legal_move` leaves behind: every temporary
mutation written back (source and destination occupants, the en-passant
victim, the two rook squares), the turn flipped back and the test flag
cleared.  The saved occupants (`original_piece`, `original_move_piece`,
`en_passant_piece`, `rook`) are recomputed here by the same reads the
source performs before mutating. -/
def restoreState (b : Board) (sf sr mf mr : Nat) : Board :=
  let isEp := isEnPassant b sf sr mf mr
  let isCast := isCastlingShape b sf sr mf mr
  let kingside := mf = 6
  let rookFile := if kingside then FILES - 1 else 0
  let newRookFile := if kingside then 5 else 3
  let epPiece := b.grid mf sr
  let b1 := if isEp then b.setPiece mf sr none else b
  let rookPiece := b1.grid rookFile sr
  let b2 := if isCast then b1.setPiece rookFile sr none else b1
  let originalPiece := b2.grid sf sr
  let b3 := b2.setPiece sf sr none
  let originalMovePiece := b3.grid mf mr
  let st := simState b sf sr mf mr
  let r1 := st.setPiece sf sr originalPiece
  let r2 := r1.setPiece mf mr originalMovePiece
  let r3 := if isEp then r2.setPiece mf sr epPiece else r2
  let r4 := if isCast then (r3.setPiece rookFile sr rookPiece).setPiece newRookFile sr none
            else r3
  { r4 with turn := r4.turn.opponent, testMove := false }

/-- `Board.legal_move` as a state-passing function: its boolean result
together with the board state it leaves behind. -/
def legalMoveFull (b : Board) (sf sr mf mr : Nat) : Bool × Board :=
  (legalMove b sf sr mf mr, restoreState b sf sr mf mr)

/-- `Board.filter_possible_moves` (board.py lines 286-299): in test mode
return the input unchanged, otherwise keep the moves `legal_move`
accepts.  (Each Python `legal_move` call mutates and then restores the
shared board; restoration on every invoked shape is proved below, which
is what makes testing each candidate against `b` faithful.) -/
def filterPossibleMoves (b : Board) (sf sr : Nat) (moves : List Square) : List Square :=
  if b.testMove then moves
  else moves.filter fun m => legalMove b sf sr m.file m.rank

/-- `Board.get_pawn_moves`: candidates then the legality filter. -/
def getPawnMoves (b : Board) (sf sr : Nat) : List Square :=
  filterPossibleMoves b sf sr (pawnPseudo b sf sr)

/-- `Board.get_knight_moves`: candidates then the legality filter. -/
def getKnightMoves (b : Board) (sf sr : Nat) : List Square :=
  filterPossibleMoves b sf sr (knightPseudo b sf sr)

/-- `Board.get_bishop_moves`. -/
def getBishopMoves (b : Board) (sf sr : Nat) : List Square :=
  filterPossibleMoves b sf sr (straightLinePseudo b sf sr bishopShifts (FILES - 1))

/-- `Board.get_rook_moves`. -/
def getRookMoves (b : Board) (sf sr : Nat) : List Square :=
  filterPossibleMoves b sf sr (straightLinePseudo b sf sr rookShifts (FILES - 1))

/-- `Board.get_queen_moves`: bishop moves plus rook moves. -/
def getQueenMoves (b : Board) (sf sr : Nat) : List Square :=
  getBishopMoves b sf sr ++ getRookMoves b sf sr

/-- `Board.get_king_moves` (board.py lines 615-634): the filtered
one-step moves, plus — when the king is on its home square and this is
not a test move — each castling destination that passes `is_castling`
and `legal_move`. -/
def getKingMoves (b : Board) (sf sr : Nat) : List Square :=
  let base := filterPossibleMoves b sf sr (straightLinePseudo b sf sr kingShifts 1)
  let backrank := if b.turn = Colour.white then 0 else RANKS - 1
  if sf = 4 ∧ sr = backrank ∧ b.testMove = false then
    base ++ ([b.get 6 backrank, b.get 2 backrank].filter fun m =>
      isCastling b sf sr m.file m.rank true && legalMove b sf sr m.file m.rank)
  else base

/-- `self.move_methods[square.piece.type](square)`. -/
def movesFor (b : Board) (sf sr : Nat) : Pieces → List Square
  | .pawn => getPawnMoves b sf sr
  | .knight => getKnightMoves b sf sr
  | .bishop => getBishopMoves b sf sr
  | .rook => getRookMoves b sf sr
  | .queen => getQueenMoves b sf sr
  | .king => getKingMoves b sf sr

/-- `Board.get_all_moves` (board.py lines 636-646) in general (its test
mode behaviour reduces to `getAllMovesTest`). -/
def getAllMoves (b : Board) : List Square :=
  iterSquares.flatMap fun fr =>
    match b.grid fr.1 fr.2 with
    | some p => if p.colour = b.turn then movesFor b fr.1 fr.2 p.type else []
    | none => []

/-- `Board.get_moves` (board.py lines 648-655): the per-piece move lists
of the side to move, in board iteration order. -/
def getMoves (b : Board) : List (Piece × List Square) :=
  iterSquares.filterMap fun fr =>
    match b.grid fr.1 fr.2 with
    | some p => if p.colour = b.turn then some (p, movesFor b fr.1 fr.2 p.type) else none
    | none => none

/-- `Board.get_king_square` (board.py lines 129-136): the first square in
iteration order holding a king whose colour matches (opponent = false)
or differs from (opponent = true) the turn; `none` when there is no such
square (Python then returns None). -/
def getKingSquare (b : Board) (opponent : Bool) : Option Square :=
  (iterSquares.filterMap fun fr =>
    match b.grid fr.1 fr.2 with
    | some p =>
      if p.type = Pieces.king ∧ (decide (p.colour ≠ b.turn) = opponent) then
        some (b.get fr.1 fr.2)
      else none
    | none => none).head?

/-- `Board.is_check` (board.py lines 95-104): the current side's king
square is among the opponent's candidate moves (generated in test mode
with the turn flipped).  A missing king gives `false` (Python's
`None in opponent_moves`). -/
def isCheck (b : Board) : Bool :=
  match getKingSquare b false with
  | none => false
  | some ks =>
    (getAllMovesTest { b with testMove := true, turn := b.turn.opponent }).any
      fun q => decide (q = ks)

/-- `Board.checkmate_square` (board.py lines 106-119): if the opposing
king is attacked by the current side's candidate moves and, after the
turn flips, the (now-current) side has no legal move, the opposing
king's square; else `none`.  The second `get_all_moves` call runs with
the test flag already cleared, i.e. fully filtered. -/
def checkmateSquare (b : Board) : Option Square :=
  let possibleNext := getAllMovesTest { b with testMove := true }
  match getKingSquare b true with
  | none => none
  | some ks =>
    if possibleNext.any (fun q => decide (q = ks)) then
      if (getAllMoves { b with turn := b.turn.opponent }).isEmpty then some ks else none
    else none

/-- `PIECE_POINTS.get(piece.type, 0)` from utils.py. -/
def piecePointsOf : Pieces → Nat
  | .pawn => 1
  | .knight => 3
  | .bishop => 3
  | .rook => 5
  | .queen => 9
  | .king => 0

/-- `Board.set_piece_points` (board.py lines 662-669). -/
def setPiecePoints (b : Board) : Board :=
  { b with piecePoints := fun c =>
      (iterSquares.map fun fr =>
        match b.grid fr.1 fr.2 with
        | some p => if p.colour = c then piecePointsOf p.type else 0
        | none => 0).sum }

/-- The state descriptor `Board.record_position` (board.py lines 305-322)
hashes: turn value, occupant representations in iteration order, and the
current move lists keyed by piece representation. -/
def posDesc (b : Board) : PosState :=
  (b.turn.val,
   iterSquares.map fun fr => (b.grid fr.1 fr.2).map pieceRepr,
   b.currentMoves.map fun pm => (pieceRepr pm.1, pm.2.map fun m => (m.file, m.rank)))

/-- `Board.record_position`: add one occurrence of the current
descriptor (the source increments a counter keyed by the descriptor's
sha256; the multiset of descriptors carries the same counts). -/
def recordPosition (b : Board) : Board :=
  { b with positionCounts := b.positionCounts ++ [posDesc b] }

/-- `Board.set_moves` (board.py lines 657-660). -/
def setMoves (b : Board) : Board :=
  recordPosition { b with currentMoves := getMoves b }

/-- The tallied kind of a captured piece (`Board.add_capture` line 160):
the piece's own kind, or pawn when the piece is a promoted pawn. -/
def tallyKind (p : Piece) : Pieces :=
  if p.promoted then Pieces.pawn else p.type

/-- `Board.add_capture` (board.py lines 158-161):
`self.captured[piece.colour][piece_type] += 1`. -/
def addCapture (b : Board) (p : Piece) : Board :=
  { b with captured := fun c t =>
      if c = p.colour ∧ t = tallyKind p then b.captured c t + 1 else b.captured c t }

/-- `Board.add_move` (board.py lines 147-156): build the record and
append it.  The last two flag arguments are the spec-modelled
`is_check`/`is_checkmate` fields of `MoveRec`. -/
def addMove (b : Board) (fromBefore toBefore fromAfter toAfter : Square)
    (isEp isProm isCast chk chkmate : Bool) : Board :=
  { b with moves := b.moves ++
      [⟨fromBefore, toBefore, fromAfter, toAfter, isCast, isEp, isProm, chk, chkmate⟩] }

/-- `Rook, Knight, Bishop, Queen, King, Bishop, Knight, Rook`: the back
rank of `Board.__init__`. -/
def backRankType : Nat → Pieces
  | 0 => .rook
  | 1 => .knight
  | 2 => .bishop
  | 3 => .queen
  | 4 => .king
  | 5 => .bishop
  | 6 => .knight
  | 7 => .rook
  | _ => .pawn

/-- The starting grid of `Board.__init__` (board.py lines 46-60).  Piece
object identities are modelled by distinct `pid`s (file + 8 * rank of
the starting square). -/
def initGrid : Nat → Nat → Option Piece := fun f r =>
  if f < FILES then
    if r = 0 then some ⟨f, backRankType f, Colour.white, false⟩
    else if r = 1 then some ⟨8 + f, Pieces.pawn, Colour.white, false⟩
    else if r = 6 then some ⟨48 + f, Pieces.pawn, Colour.black, false⟩
    else if r = 7 then some ⟨56 + f, backRankType f, Colour.black, false⟩
    else none
  else none

/-- `Board.__init__` (board.py lines 46-87): starting layout, White to
move, empty histories, zeroed tallies, then `set_piece_points` and
`set_moves` (which records the first position). -/
def startBoard : Board :=
  setMoves (setPiecePoints
    { grid := initGrid, turn := Colour.white, testMove := false, moves := [],
      captured := fun _ _ => 0, piecePoints := fun _ => 0,
      positionCounts := [], currentMoves := [] })

/-- The board-state core of `DisplayBoard.make_move` (display.py lines
206-317): en-passant capture, promotion or normal relocation, castling
rook relocation, capture tally, clearing the source, recomputing piece
points, then — depending on `checkmate_square` — appending the move
record (and on the non-checkmate path flipping the turn, computing
`is_check` and recomputing the move map).  `none` models the early
return that opens the promotion menu when a promotion move arrives
without a chosen piece.  The call to the missing
`Board.get_source_square_notation` computes a string the board state
never stores (see C4), and the UI-only effects (sounds, captions, draw
flags, clocks) are outside the board state. -/
def commitMove (b : Board) (sf sr mf mr : Nat) (promo : Option Piece) : Option Board :=
  let isEp := isEnPassant b sf sr mf mr
  let isProm := isPromotion b sf sr mf mr
  let isCast := isCastlingShape b sf sr mf mr
  let fromBefore := b.get sf sr
  let toBefore := b.get mf mr
  let b1 :=
    if isEp then
      match b.grid mf sr with
      | some vp => (addCapture b vp).setPiece mf sr none
      | none => b.setPiece mf sr none
    else b
  if isProm ∧ promo.isNone then none
  else
    let b2 := if isProm then b1.setPiece mf mr promo else b1.setPiece mf mr (b1.grid sf sr)
    let b3 :=
      if isCast then
        let kingside := mf = 6
        let rookFile := if kingside then FILES - 1 else 0
        let newRookFile := if kingside then 5 else 3
        (b2.setPiece newRookFile mr (b2.grid rookFile mr)).setPiece rookFile mr none
      else b2
    let b4 :=
      match toBefore.piece with
      | some tp => if tp.colour ≠ b.turn then addCapture b3 tp else b3
      | none => b3
    let b5 := b4.setPiece sf sr none
    let fromAfter := b5.get sf sr
    let toAfter := b5.get mf mr
    let b6 := setPiecePoints b5
    match checkmateSquare b6 with
    | some _ => some (addMove b6 fromBefore toBefore fromAfter toAfter isEp isProm isCast false true)
    | none =>
      let b7 := { b6 with turn := b6.turn.opponent }
      let chk := isCheck b7
      some (setMoves (addMove b7 fromBefore toBefore fromAfter toAfter isEp isProm isCast chk false))

/-- `PGNBoard.make_move` (pgn.py lines 66-88): replay an already-played
move on the PGN board — clear the source, place the after-snapshot piece
on the destination, remove the en-passant victim, relocate the castling
rook (kingside 7 → 5; queenside 0 → 4 as written in the source), flip
the turn and append the move. -/
def pgnMakeMove (b : Board) (mv : MoveRec) : Board :=
  let fromFile := mv.fromBefore.file
  let fromRank := mv.fromBefore.rank
  let toFile := mv.toBefore.file
  let b1 := b.setPiece fromFile fromRank none
  let b2 := b1.setPiece toFile mv.toBefore.rank mv.toAfter.piece
  let b3 :=
    if mv.enPassant then
      let rank := if b.turn = Colour.white then FILES - 3 - 1 else 3
      b2.setPiece toFile rank none
    else b2
  let b4 :=
    if mv.castling then
      let kingside := toFile = FILES - 2
      let rookFile := if kingside then FILES - 1 else 0
      let rookDestFile := if kingside then FILES - 3 else 4
      let rook := b3.grid rookFile fromRank
      (b3.setPiece rookFile fromRank none).setPiece rookDestFile fromRank rook
    else b3
  { b4 with turn := b4.turn.opponent, moves := b4.moves ++ [mv] }

/-- The per-colour scan of `Board.is_insufficient_material` (board.py
lines 350-372): walk the squares, return `none` on a pawn, rook or queen
of the scanned colour (the Python `return False`), otherwise accumulate
per-kind counts and remember the last bishop square found. -/
def collectMat (b : Board) (c : Colour) :
    List (Nat × Nat) → (Pieces → Nat) → Option (Nat × Nat) →
    Option ((Pieces → Nat) × Option (Nat × Nat))
  | [], counts, bsq => some (counts, bsq)
  | fr :: rest, counts, bsq =>
    match b.grid fr.1 fr.2 with
    | some p =>
      if p.colour = c then
        if p.type = Pieces.pawn ∨ p.type = Pieces.rook ∨ p.type = Pieces.queen then none
        else
          collectMat b c rest (fun t => if t = p.type then counts t + 1 else counts t)
            (if p.type = Pieces.bishop then some fr else bsq)
      else collectMat b c rest counts bsq
    | none => collectMat b c rest counts bsq

/-- `sum(colour_counts.values())`: the scanned dict only ever holds
knight, bishop and king keys, and the other kinds stay at zero in the
function model, so summing all six kinds gives the same value. -/
def totalPieces (counts : Pieces → Nat) : Nat :=
  counts Pieces.pawn + counts Pieces.knight + counts Pieces.bishop
    + counts Pieces.rook + counts Pieces.queen + counts Pieces.king

/-- `is_dark = [square.file % 2 == square.rank % 2 for ...]` compared for
the two recorded bishop squares (white's first, black's second — the
dict is keyed in that insertion order no matter which colour's loop
iteration runs the comparison).  Both squares are present whenever the
guard (one bishop each) holds. -/
def sameBishopColour (bw bb : Option (Nat × Nat)) : Bool :=
  match bw, bb with
  | some w, some bl => decide ((decide (w.1 % 2 = w.2 % 2)) = (decide (bl.1 % 2 = bl.2 % 2)))
  | _, _ => false

/-- One iteration of the second loop of `Board.is_insufficient_material`
(board.py lines 373-397), for the colour whose counts are `mine`: king
vs king-plus-at-most-one-minor, or the one-bishop-each same-colour
check. -/
def insuffColourCheck (mine opp : Pieces → Nat) (bw bb : Option (Nat × Nat)) : Bool :=
  let cp := totalPieces mine
  let op := totalPieces opp
  (decide (op = 1) && decide (cp ≤ 2))
    || (decide (cp = 2) && decide (mine Pieces.bishop = 1)
        && decide (op = 2) && decide (opp Pieces.bishop = 1)
        && sameBishopColour bw bb)

/-- `Board.is_insufficient_material` (board.py lines 340-400). -/
def isInsufficientMaterial (b : Board) : Bool :=
  match collectMat b Colour.white iterSquares (fun _ => 0) none with
  | none => false
  | some cw =>
    match collectMat b Colour.black iterSquares (fun _ => 0) none with
    | none => false
    | some cb =>
      insuffColourCheck cw.1 cb.1 cw.2 cb.2 || insuffColourCheck cb.1 cw.1 cw.2 cb.2

/-- `FILE_STRING = "abcdefgh"` indexing from utils.py. -/
def fileLetter (f : Nat) : String :=
  ["a", "b", "c", "d", "e", "f", "g", "h"].getD f ""

/-- The ambiguity scan of `PGNBoard.get_source_square_notation` (pgn.py
lines 90-124): walk every square except the source, and for every
same-kind occupied square whose generated move list reaches the
destination, update the file/rank ambiguity flags; `none` models the
early full-square return once both flags hold. -/
def ambScan (b : Board) (srcFile srcRank : Nat) (srcType : Pieces) (dest : Square) :
    List (Nat × Nat) → Bool → Bool → Option (Bool × Bool)
  | [], fa, ra => some (fa, ra)
  | fr :: rest, fa, ra =>
    if fr.1 = srcFile ∧ fr.2 = srcRank then ambScan b srcFile srcRank srcType dest rest fa ra
    else
      match b.grid fr.1 fr.2 with
      | none => ambScan b srcFile srcRank srcType dest rest fa ra
      | some p =>
        if p.type ≠ srcType then ambScan b srcFile srcRank srcType dest rest fa ra
        else
          if (movesFor b fr.1 fr.2 p.type).any (fun q => decide (q = dest)) then
            let fa' := fa || decide (fr.1 ≠ srcFile)
            let ra' := ra || decide (fr.2 ≠ srcRank)
            if fa' && ra' then none
            else ambScan b srcFile srcRank srcType dest rest fa' ra'
          else ambScan b srcFile srcRank srcType dest rest fa ra

/-- `PGNBoard.get_source_square_notation` (pgn.py lines 90-124): the
most concise source-square string for algebraic moves — nothing, the
file, the rank, or the full square. -/
def getSourceSquareStr (b : Board) (srcFile srcRank destFile destRank : Nat)
    (isCapture : Bool) : String :=
  match b.grid srcFile srcRank with
  | none => ""
  | some srcPiece =>
    let dest := b.get destFile destRank
    match ambScan b srcFile srcRank srcPiece.type dest iterSquares false false with
    | none => fileLetter srcFile ++ toString (srcRank + 1)
    | some far =>
      if far.1 || (decide (srcPiece.type = Pieces.pawn) && isCapture) then fileLetter srcFile
      else if far.2 then toString (srcRank + 1)
      else ""

/-- Python list indexing: non-negative indices within range, negative
indices counted from the end, anything else an `IndexError` (`none`). -/
def pyNth {α : Type} (l : List α) (i : Int) : Option α :=
  if 0 ≤ i then l.get? i.toNat
  else if 0 ≤ (l.length : Int) + i then l.get? ((l.length : Int) + i).toNat
  else none

/-- The nested list `self.board` as `Board.__init__` lays it out: row 0
is rank 7 down to row 7 = rank 0. -/
def boardRows (b : Board) : List (List Square) :=
  (List.range RANKS).map fun i => (List.range FILES).map fun f => b.get f (RANKS - 1 - i)

/-- `Board.get` exactly as Python executes it on the nested lists —
`self.board[RANKS - rank - 1][file]` with Python indexing semantics
(negative wrap-around, `IndexError` to `none`) — as the
`try/except IndexError` in `DisplayBoard.get_square` observes it. -/
def boardPyGet (b : Board) (file rank : Int) : Option Square :=
  match pyNth (boardRows b) ((RANKS : Int) - rank - 1) with
  | none => none
  | some row => pyNth row file

/-- `DisplayBoard.get_square` (display.py lines 102-123): reject clicks
outside the board rectangle, derive file and rank from the coordinates,
invert both when the display is reversed, and translate an `IndexError`
from the lookup into `none`. -/
def displayGetSquare (minX minY w : Nat) (inReverse : Bool) (b : Board)
    (x y : Nat) : Option Square :=
  if ¬(minX ≤ x ∧ x ≤ minX + w * FILES ∧ minY ≤ y ∧ y ≤ minY + w * RANKS) then none
  else
    let file0 : Int := ((x - minX) / w : Nat)
    let rank0 : Int := (RANKS : Int) - 1 - (((y - minY) / w : Nat) : Int)
    let file := if inReverse then (FILES : Int) - 1 - file0 else file0
    let rank := if inReverse then (RANKS : Int) - 1 - rank0 else rank0
    boardPyGet b file rank

/-- Total number of destination squares in a legal-move map. -/
def totalDests (m : List (Piece × List Square)) : Nat :=
  (m.map fun pm => pm.2.length).sum

/-- Number of destination squares contributed by pieces of one kind. -/
def typeDests (m : List (Piece × List Square)) (k : Pieces) : Nat :=
  ((m.filter fun pm => pm.1.type = k).map fun pm => pm.2.length).sum

/-- A sparse board layout as a grid function. -/
def gridOf (l : List (Nat × Nat × Piece)) : Nat → Nat → Option Piece := fun f r =>
  (l.find? fun e => e.1 = f ∧ e.2.1 = r).map fun e => e.2.2

/-- A board in mid-game state with the given layout, the given side to
move and no move history (all `Board.__init__` bookkeeping fields reset;
none of them feed the move generator). -/
def mkBoard (t : Colour) (l : List (Nat × Nat × Piece)) : Board :=
  { grid := gridOf l, turn := t, testMove := false, moves := [],
    captured := fun _ _ => 0, piecePoints := fun _ => 0,
    positionCounts := [], currentMoves := [] }

/-- White king e1 and rook h1 on their home squares, unmoved, with the
castling corridor f1/g1 empty and unattacked — but the king in check
from the black rook on e8 (black king a8). -/
def cexC3 : Board := mkBoard Colour.white
  [(4, 0, ⟨1, Pieces.king, Colour.white, false⟩),
   (7, 0, ⟨2, Pieces.rook, Colour.white, false⟩),
   (0, 7, ⟨3, Pieces.king, Colour.black, false⟩),
   (4, 7, ⟨4, Pieces.rook, Colour.black, false⟩)]

/-- The start position with the two squares between White's king and
kingside rook vacated: kingside castling is available. -/
def wbC3 : Board :=
  { startBoard with grid := fun f r =>
      if (f = 5 ∧ r = 0) ∨ (f = 6 ∧ r = 0) then none else startBoard.grid f r }

/-- A white knight piece for the disambiguation boards. -/
def wKnight (pid : Nat) : Piece := ⟨pid, Pieces.knight, Colour.white, false⟩

/-- Kings for the disambiguation boards (e1 and e8). -/
def c8Kings : List (Nat × Nat × Piece) :=
  [(4, 0, ⟨1, Pieces.king, Colour.white, false⟩),
   (4, 7, ⟨2, Pieces.king, Colour.black, false⟩)]

/-- White knights on b1 and d2 (the claim's concrete configuration). -/
def c8BoardD2 : Board := mkBoard Colour.white ((1, 0, wKnight 10) :: (3, 1, wKnight 11) :: c8Kings)

/-- White knights on b1 and d1: both reach c3, same rank. -/
def c8BoardD1 : Board := mkBoard Colour.white ((1, 0, wKnight 10) :: (3, 0, wKnight 11) :: c8Kings)

/-- White knights on b1 and d5: both reach c3, different file and rank. -/
def c8BoardD5 : Board := mkBoard Colour.white ((1, 0, wKnight 10) :: (3, 4, wKnight 11) :: c8Kings)

/-- White knights on b1 and b5: both reach c3, same file. -/
def c8BoardB5 : Board := mkBoard Colour.white ((1, 0, wKnight 10) :: (1, 4, wKnight 11) :: c8Kings)

/-- A complete short game ending in White queenside castling:
1. d4 d5 2. Bf4 Bf5 3. Nc3 Nc6 4. Qd2 Qd7 5. O-O-O, as (source file,
source rank, destination file, destination rank) quadruples. -/
def c5Game : List (Nat × Nat × Nat × Nat) :=
  [(3, 1, 3, 3), (3, 6, 3, 4), (2, 0, 5, 3), (2, 7, 5, 4), (1, 0, 2, 2),
   (1, 7, 2, 5), (3, 0, 3, 1), (3, 7, 3, 6), (4, 0, 2, 0)]

/-- Commit a list of moves through `DisplayBoard.make_move`. -/
def commitGame : Board → List (Nat × Nat × Nat × Nat) → Option Board
  | b, [] => some b
  | b, m :: rest =>
    match commitMove b m.1 m.2.1 m.2.2.1 m.2.2.2 none with
    | some b2 => commitGame b2 rest
    | none => none

/-- Every move of the list is played by a piece of the side to move,
appears in that piece's filtered move list (i.e. in the legal-move map
the UI draws from), and commits successfully. -/
def movesLegal : Board → List (Nat × Nat × Nat × Nat) → Bool
  | _, [] => true
  | b, m :: rest =>
    (match b.grid m.1 m.2.1 with
     | some p => decide (p.colour = b.turn)
        && (movesFor b m.1 m.2.1 p.type).any fun q => decide (q.file = m.2.2.1 ∧ q.rank = m.2.2.2)
     | none => false)
    && (match commitMove b m.1 m.2.1 m.2.2.1 m.2.2.2 none with
        | some b2 => movesLegal b2 rest
        | none => false)

/-- The occupant layout at one square: piece kind and colour. -/
def layoutAt (b : Board) (f r : Nat) : Option (Pieces × Colour) :=
  (b.grid f r).map fun p => (p.type, p.colour)

/-- The board after the whole `c5Game` has been committed. -/
def c5Final : Option Board := commitGame startBoard c5Game

/-- The board after the single committed move 1. e4. -/
def afterE4 : Board :=
  match commitMove startBoard 4 1 4 3 none with
  | some b => b
  | none => startBoard

/-- Number of squares in `L` holding a piece of the given colour and
kind. -/
def cntPieces (b : Board) (c : Colour) (k : Pieces) (L : List (Nat × Nat)) : Nat :=
  (L.filter fun fr =>
    match b.grid fr.1 fr.2 with
    | some p => decide (p.colour = c ∧ p.type = k)
    | none => false).length

/-- Number of squares of the whole board holding a piece of the given
colour and kind. -/
def pieceCount (b : Board) (c : Colour) (k : Pieces) : Nat :=
  cntPieces b c k iterSquares

/-- The bishop-square accumulation of the material scan in isolation:
the last square of `L` holding a bishop of colour `c`, else the
accumulator. -/
def lastBishop (b : Board) (c : Colour) : List (Nat × Nat) → Option (Nat × Nat) → Option (Nat × Nat)
  | [], acc => acc
  | fr :: rest, acc =>
    lastBishop b c rest
      (match b.grid fr.1 fr.2 with
       | some p => if p.colour = c ∧ p.type = Pieces.bishop then some fr else acc
       | none => acc)

/-- The sum of all captured-piece counters of both colours. -/
def capturedTotal (b : Board) : Nat :=
  ([Colour.white, Colour.black].map fun c =>
    ([Pieces.pawn, Pieces.knight, Pieces.bishop, Pieces.rook, Pieces.queen,
      Pieces.king].map fun k => b.captured c k).sum).sum

/-- A pawn, rook or queen of colour `c` stands at `fr`. -/
def prqAt (b : Board) (c : Colour) (fr : Nat × Nat) : Prop :=
  ∃ p, b.grid fr.1 fr.2 = some p ∧ p.colour = c
    ∧ (p.type = Pieces.pawn ∨ p.type = Pieces.rook ∨ p.type = Pieces.queen)

/-- A bishop of colour `c` stands at `fr`. -/
def bishopAt (b : Board) (c : Colour) (fr : Nat × Nat) : Prop :=
  ∃ p, b.grid fr.1 fr.2 = some p ∧ p.colour = c ∧ p.type = Pieces.bishop

/-- The exact material of one colour: pawn, knight, bishop, rook,
queen and king counts over the whole board. -/
def materialIs (b : Board) (c : Colour) (np nn nb nr nq nk : Nat) : Prop :=
  pieceCount b c Pieces.pawn = np ∧ pieceCount b c Pieces.knight = nn
  ∧ pieceCount b c Pieces.bishop = nb ∧ pieceCount b c Pieces.rook = nr
  ∧ pieceCount b c Pieces.queen = nq ∧ pieceCount b c Pieces.king = nk

/-- White king a1, black king h8. -/
def kingW : Piece := ⟨1, Pieces.king, Colour.white, false⟩

/-- The black king piece of the material-check boards. -/
def kingB : Piece := ⟨2, Pieces.king, Colour.black, false⟩

/-- King versus king. -/
def c6KK : Board := mkBoard Colour.white [(0, 0, kingW), (7, 7, kingB)]

/-- King and knight versus king. -/
def c6KN : Board := mkBoard Colour.white
  [(0, 0, kingW), (7, 7, kingB), (3, 3, ⟨3, Pieces.knight, Colour.white, false⟩)]

/-- King and bishop versus king. -/
def c6KB : Board := mkBoard Colour.white
  [(0, 0, kingW), (7, 7, kingB), (3, 3, ⟨3, Pieces.bishop, Colour.white, false⟩)]

/-- King and bishop each, bishops on same-coloured (dark) squares. -/
def c6BBsame : Board := mkBoard Colour.white
  [(0, 0, kingW), (7, 7, kingB), (3, 3, ⟨3, Pieces.bishop, Colour.white, false⟩),
   (4, 4, ⟨4, Pieces.bishop, Colour.black, false⟩)]

/-- King and bishop each, bishops on opposite-coloured squares. -/
def c6BBopp : Board := mkBoard Colour.white
  [(0, 0, kingW), (7, 7, kingB), (3, 3, ⟨3, Pieces.bishop, Colour.white, false⟩),
   (4, 5, ⟨4, Pieces.bishop, Colour.black, false⟩)]

/-- Kings plus a black pawn. -/
def c6Pawn : Board := mkBoard Colour.white
  [(0, 0, kingW), (7, 7, kingB), (3, 3, ⟨3, Pieces.pawn, Colour.black, false⟩)]

/-- Every bishop of colour `c` on the board stands on a square whose
colour parity (file and rank parities equal = dark) is `d`. -/
def bishopsParity (b : Board) (c : Colour) (d : Bool) : Bool :=
  iterSquares.all fun fr =>
    match b.grid fr.1 fr.2 with
    | some p =>
      if p.colour = c ∧ p.type = Pieces.bishop then
        decide (decide (fr.1 % 2 = fr.2 % 2) = d)
      else true
    | none => true

theorem setPiece_grid (b : Board) (file rank : Nat) (p : Option Piece) (f r : Nat) :
    (b.setPiece file rank p).grid f r = if f = file ∧ r = rank then p else b.grid f r := rfl

theorem mem_map_get_live (b : Board) (L : List (Nat × Nat)) :
    ∀ q ∈ L.map (fun fr => b.get fr.1 fr.2), q.piece = b.grid q.file q.rank := by
  intro q hq
  obtain ⟨fr, _, rfl⟩ := List.mem_map.mp hq
  rfl

theorem pseudoMovesFor_live (b : Board) (sf sr : Nat) (t : Pieces) :
    ∀ q ∈ pseudoMovesFor b sf sr t, q.piece = b.grid q.file q.rank := by
  intro q hq
  cases t <;>
    simp only [pseudoMovesFor, pawnPseudo, knightPseudo, straightLinePseudo,
      List.mem_append] at hq
  case pawn => exact mem_map_get_live b _ q hq
  case knight => exact mem_map_get_live b _ q hq
  case bishop => exact mem_map_get_live b _ q hq
  case rook => exact mem_map_get_live b _ q hq
  case queen => rcases hq with h | h <;> exact mem_map_get_live b _ q h
  case king => exact mem_map_get_live b _ q hq

theorem getAllMovesTest_live (st : Board) :
    ∀ q ∈ getAllMovesTest st, q.piece = st.grid q.file q.rank := by
  intro q hq
  obtain ⟨fr, _, hq2⟩ := List.mem_flatMap.mp hq
  rcases hgrid : st.grid fr.1 fr.2 with _ | p <;> rw [hgrid] at hq2
  · simp at hq2
  · have hq3 : q ∈ (if p.colour = st.turn then pseudoMovesFor st fr.1 fr.2 p.type else []) := hq2
    by_cases hc : p.colour = st.turn
    · rw [if_pos hc] at hq3
      exact pseudoMovesFor_live st fr.1 fr.2 p.type q hq3
    · rw [if_neg hc] at hq3
      simp at hq3

/-- C1: for every board not in test mode, every move kept by
`filter_possible_moves` leaves a position (the simulated position
`legal_move` builds, which is the played position as far as occupancy
is concerned) in which no opponent pseudo-legal reply lands on the
square of the mover's own king. -/
theorem c1_filter_keeps_king_safe
    (b : Board) (sf sr : Nat) (ms : List Square) (m : Square)
    (ht : b.testMove = false)
    (hm : m ∈ filterPossibleMoves b sf sr ms)
    (kf kr : Nat) (p : Piece)
    (hk : (simState b sf sr m.file m.rank).grid kf kr = some p)
    (hking : p.type = Pieces.king)
    (_hcol : p.colour = b.turn) :
    (getAllMovesTest (simState b sf sr m.file m.rank)).any
      (fun q => decide (q.file = kf) && decide (q.rank = kr)) = false := by
  have hleg : legalMove b sf sr m.file m.rank = true := by
    unfold filterPossibleMoves at hm
    rw [ht] at hm
    simp only [Bool.false_eq_true, if_false, List.mem_filter] at hm
    exact hm.2
  by_contra hany
  rw [Bool.not_eq_false, List.any_eq_true] at hany
  obtain ⟨q, hqmem, hq⟩ := hany
  simp only [Bool.and_eq_true, decide_eq_true_eq] at hq
  have hlive := getAllMovesTest_live _ q hqmem
  rw [hq.1, hq.2, hk] at hlive
  have hall := List.all_eq_true.mp hleg q hqmem
  rw [hlive] at hall
  simp only [decide_eq_true_eq] at hall
  exact hall hking

theorem c1_witness :
    (getAllMovesTest (simState startBoard 1 0 2 2)).any
      (fun q => decide (q.file = 4) && decide (q.rank = 0)) = false :=
  c1_filter_keeps_king_safe startBoard 1 0 (knightPseudo startBoard 1 0) (startBoard.get 2 2)
    rfl (by decide) 4 0 ⟨4, Pieces.king, Colour.white, false⟩ (by decide) rfl rfl

/-- C10: `add_capture(p)` increments exactly the counter of p's colour
for p's tallied kind (the pawn counter when p is a promoted piece),
leaves every other counter unchanged, and grows the total tally by one.
The hypothesis mirrors the captured dict's key set (king is not a key). -/
theorem c10_add_capture_tally (b : Board) (p : Piece)
    (_hkey : tallyKind p ≠ Pieces.king) :
    ((addCapture b p).captured p.colour (tallyKind p) = b.captured p.colour (tallyKind p) + 1)
    ∧ (∀ c t, ¬(c = p.colour ∧ t = tallyKind p) → (addCapture b p).captured c t = b.captured c t)
    ∧ capturedTotal (addCapture b p) = capturedTotal b + 1 := by
  refine ⟨?_, ?_, ?_⟩
  · simp [addCapture]
  · intro c t h
    simp only [addCapture]
    rw [if_neg h]
  · rcases p with ⟨pid, ptype, pcol, ppromo⟩
    cases ppromo <;> cases pcol <;> cases ptype <;>
      simp [capturedTotal, addCapture, tallyKind] <;> omega

theorem c10_witness :
    (addCapture startBoard ⟨90, Pieces.queen, Colour.black, false⟩).captured
        Colour.black Pieces.queen
      = startBoard.captured Colour.black Pieces.queen + 1 :=
  (c10_add_capture_tally startBoard ⟨90, Pieces.queen, Colour.black, false⟩ (by decide)).1

/-- C7: the freshly constructed board's legal-move map has exactly 20
destinations (16 from pawns, 4 from knights), and after the committed
move of the e-pawn from e2 to e4 the recomputed map for Black again has
exactly 20 destinations. -/
theorem c7_twenty_moves :
    totalDests startBoard.currentMoves = 20
    ∧ typeDests startBoard.currentMoves Pieces.pawn = 16
    ∧ typeDests startBoard.currentMoves Pieces.knight = 4
    ∧ (commitMove startBoard 4 1 4 3 none).map (fun b => (b.turn, totalDests b.currentMoves))
        = some (Colour.black, 20) :=
  ⟨by decide, by decide, by decide, rfl⟩

theorem Colour.opponent_opponent (c : Colour) : c.opponent.opponent = c := by
  cases c <;> rfl

theorem ep_cast_exclusive (b : Board) (sf sr mf mr : Nat)
    (hep : isEnPassant b sf sr mf mr = true)
    (hcast : isCastlingShape b sf sr mf mr = true) : False := by
  unfold isEnPassant at hep
  unfold isCastlingShape isCastling at hcast
  rcases hg : b.grid sf sr with _ | p <;> simp only [hg] at hep hcast
  · exact absurd hep (by decide)
  · by_cases hk : p.type = Pieces.king ∧ ((mf : Int) - (sf : Int)).natAbs = 2
    · have hp : p.type ≠ Pieces.pawn := by rw [hk.1]; decide
      rw [if_pos (Or.inl hp)] at hep
      exact absurd hep (by decide)
    · rw [if_pos hk] at hcast
      exact absurd hcast (by decide)

set_option maxRecDepth 4000

/-- C2: on every invoked shape (source and destination distinct;
castling-shaped calls only arrive validated: king on file 4, same rank,
destination file 2 or 6, rook-destination square empty), `legal_move`
hands back exactly the board it was given: every occupant, the turn, the
test flag, the move history and the position-count table. -/
theorem c2_legal_move_restores_state
    (b : Board) (sf sr mf mr : Nat)
    (ht : b.testMove = false)
    (hne : ¬(sf = mf ∧ sr = mr))
    (hcast : isCastlingShape b sf sr mf mr = true →
      sf = 4 ∧ mr = sr ∧ ((mf = 6 ∧ b.grid 5 sr = none) ∨ (mf = 2 ∧ b.grid 3 sr = none))) :
    (∀ f r, (legalMoveFull b sf sr mf mr).2.grid f r = b.grid f r)
    ∧ (legalMoveFull b sf sr mf mr).2.turn = b.turn
    ∧ (legalMoveFull b sf sr mf mr).2.testMove = b.testMove
    ∧ (legalMoveFull b sf sr mf mr).2.moves = b.moves
    ∧ (legalMoveFull b sf sr mf mr).2.positionCounts = b.positionCounts := by
  have hne' : ¬(mf = sf ∧ mr = sr) := fun h => hne ⟨h.1.symm, h.2.symm⟩
  rcases hEp : isEnPassant b sf sr mf mr with _ | _
  · rcases hCast : isCastlingShape b sf sr mf mr with _ | _
    · -- plain move
      refine ⟨?_, ?_, ?_, ?_, ?_⟩ <;>
        simp only [legalMoveFull, restoreState, simState, hEp, hCast, Bool.false_eq_true,
          if_false, Board.setPiece, Colour.opponent_opponent, ht]
      intro f r
      split_ifs <;> simp_all
    · -- castling shape
      obtain ⟨h4, hmr, hside⟩ := hcast hCast
      subst h4 hmr
      rcases hside with ⟨h6, hcor⟩ | ⟨h2, hcor⟩
      · subst h6
        refine ⟨?_, ?_, ?_, ?_, ?_⟩ <;>
          simp only [legalMoveFull, restoreState, simState, hEp, hCast, Bool.false_eq_true,
            if_false, if_true, Board.setPiece, Colour.opponent_opponent, ht]
        intro f r
        split_ifs <;> first
          | rfl
          | (exfalso; omega)
          | (casesm* _ ∧ _ <;> subst_vars <;>
              first | rfl | exact hcor.symm | contradiction)
      · subst h2
        refine ⟨?_, ?_, ?_, ?_, ?_⟩ <;>
          simp only [legalMoveFull, restoreState, simState, hEp, hCast, Bool.false_eq_true,
            if_false, if_true, Board.setPiece, Colour.opponent_opponent, ht]
        intro f r
        split_ifs <;> first
          | rfl
          | (exfalso; omega)
          | (casesm* _ ∧ _ <;> subst_vars <;>
              first | rfl | exact hcor.symm | contradiction)
  · rcases hCast : isCastlingShape b sf sr mf mr with _ | _
    · -- en passant
      refine ⟨?_, ?_, ?_, ?_, ?_⟩ <;>
        simp only [legalMoveFull, restoreState, simState, hEp, hCast, Bool.false_eq_true,
          if_false, if_true, Board.setPiece, Colour.opponent_opponent, ht]
      intro f r
      split_ifs <;> simp_all
    · exact (ep_cast_exclusive b sf sr mf mr hEp hCast).elim

theorem c2_witness :
    (legalMoveFull startBoard 4 1 4 3).2.grid 4 1 = startBoard.grid 4 1
    ∧ (legalMoveFull startBoard 4 1 4 3).2.turn = startBoard.turn := by
  have h := c2_legal_move_restores_state startBoard 4 1 4 3 rfl (by decide) (by decide)
  exact ⟨h.1 4 1, h.2.1⟩

theorem rayCoords_one (b : Board) (sf sr : Nat) (df dr : Int) (n : Nat) :
    ∀ fr ∈ rayCoords b sf sr df dr 1 n,
      fr = (((sf : Int) + df * n).toNat, ((sr : Int) + dr * n).toNat) := by
  intro fr hfr
  simp only [rayCoords] at hfr
  split at hfr
  · split at hfr
    · simp only [rayCoords, List.mem_cons, List.not_mem_nil, or_false] at hfr
      exact hfr
    · split at hfr
      · simp only [List.mem_singleton] at hfr
        exact hfr
      · simp at hfr
  · simp at hfr

theorem kingStraight_file_le (b : Board) (q : Square)
    (hq : q ∈ straightLinePseudo b 4 0 kingShifts 1) : q.file ≤ 5 := by
  unfold straightLinePseudo at hq
  obtain ⟨fr, hfr, rfl⟩ := List.mem_map.mp hq
  obtain ⟨s, hs, hmem⟩ := List.mem_flatMap.mp hfr
  have := rayCoords_one b 4 0 s.1 s.2 1 fr hmem
  subst this
  fin_cases hs <;> simp [Board.get]


/-- Bookkeeping operations leave the grid unchanged. -/
theorem addCapture_grid (b : Board) (p : Piece) : (addCapture b p).grid = b.grid := by
  cases b
  rfl

theorem setPiecePoints_grid (b : Board) : (setPiecePoints b).grid = b.grid := by
  cases b
  rfl

theorem setMoves_grid (b : Board) : (setMoves b).grid = b.grid := by
  cases b
  rfl

theorem addMove_grid (b : Board) (q1 q2 q3 q4 : Square) (f1 f2 f3 f4 f5 : Bool) :
    (addMove b q1 q2 q3 q4 f1 f2 f3 f4 f5).grid = b.grid := by
  cases b
  rfl

/-- White kingside castling validation fails without a piece on h1. -/
theorem isCastling_kw_none (b : Board) (k : Piece)
    (hw : b.turn = Colour.white) (hk : b.grid 4 0 = some k) (hkt : k.type = Pieces.king)
    (hr : b.grid 7 0 = none) :
    isCastling b 4 0 6 0 true = false := by
  unfold isCastling
  simp only [hk, hkt, hw, Colour.val, List.drop_zero, FILES]
  norm_num [hr]

/-- White kingside castling validation with the h1 occupant known:
the source's remaining checks, spelled out at the concrete squares. -/
theorem isCastling_kw_some (b : Board) (k rp : Piece)
    (hw : b.turn = Colour.white) (hk : b.grid 4 0 = some k) (hkt : k.type = Pieces.king)
    (hr : b.grid 7 0 = some rp) :
    isCastling b 4 0 6 0 true
      = (if ¬(rp.type = Pieces.rook ∧ rp.colour = Colour.white) then false
         else if ((everyOther b.moves).any fun mv =>
             decide (mv.fromBefore.piece = some k) || decide (mv.fromBefore.piece = some rp)) then false
         else if ([5, 6].any fun f => !(b.get f 0).empty) then false
         else !anySquareUnderAttack b [b.get 4 0, b.get 5 0]) := by
  unfold isCastling
  simp only [hk, hkt, hw, Colour.val, List.drop_zero, FILES]
  norm_num [hr]

/-- C3 (amended): with White to move and a king on e1, the kingside
castling destination g1 appears in the king's move list exactly when the
kingside rook stands unmoved on h1 with neither it nor the king having
moved, f1 and g1 are empty, neither e1 (the king in check) nor f1 is
attacked by an opponent candidate move, and the move passes `legal_move`
(g1 safe after the move); and committing the castling move relocates the
king to g1 and the rook to f1, emptying e1 and h1. -/
theorem c3_kingside_castling_characterization
    (b : Board) (ht : b.testMove = false) (hw : b.turn = Colour.white)
    (k : Piece) (hk : b.grid 4 0 = some k) (hkt : k.type = Pieces.king) :
    ((getKingMoves b 4 0).any (fun q => decide (q.file = 6) && decide (q.rank = 0)) = true
      ↔ ∃ rp, b.grid 7 0 = some rp ∧ rp.type = Pieces.rook ∧ rp.colour = Colour.white
          ∧ ((everyOther b.moves).any fun mv =>
              decide (mv.fromBefore.piece = some k) || decide (mv.fromBefore.piece = some rp)) = false
          ∧ b.grid 5 0 = none ∧ b.grid 6 0 = none
          ∧ anySquareUnderAttack b [b.get 4 0, b.get 5 0] = false
          ∧ legalMove b 4 0 6 0 = true)
    ∧ ∃ b', commitMove b 4 0 6 0 none = some b'
        ∧ b'.grid 6 0 = b.grid 4 0 ∧ b'.grid 5 0 = b.grid 7 0
        ∧ b'.grid 4 0 = none ∧ b'.grid 7 0 = none := by
  constructor
  · have hred : getKingMoves b 4 0
        = filterPossibleMoves b 4 0 (straightLinePseudo b 4 0 kingShifts 1)
          ++ [b.get 6 0, b.get 2 0].filter (fun m =>
               isCastling b 4 0 m.file m.rank true && legalMove b 4 0 m.file m.rank) := by
      unfold getKingMoves
      rw [hw]
      simp [ht]
    rw [hred, List.any_append]
    have hb0 : (filterPossibleMoves b 4 0 (straightLinePseudo b 4 0 kingShifts 1)).any
        (fun q => decide (q.file = 6) && decide (q.rank = 0)) = false := by
      rw [List.any_eq_false]
      intro q hq
      have h5 : q.file ≤ 5 := by
        unfold filterPossibleMoves at hq
        rw [ht] at hq
        simp only [Bool.false_eq_true, if_false, List.mem_filter] at hq
        exact kingStraight_file_le b q hq.1
      have h6 : q.file ≠ 6 := by omega
      simp [h6]
    rw [hb0, Bool.false_or]
    have hany : ([b.get 6 0, b.get 2 0].filter (fun m =>
          isCastling b 4 0 m.file m.rank true && legalMove b 4 0 m.file m.rank)).any
        (fun q => decide (q.file = 6) && decide (q.rank = 0))
        = (isCastling b 4 0 6 0 true && legalMove b 4 0 6 0) := by
      rw [List.any_filter]
      simp [Board.get]
    rw [hany]
    cases hgr : b.grid 7 0 with
    | none =>
      rw [isCastling_kw_none b k hw hk hkt hgr]
      simp [hgr]
    | some rp =>
      rw [isCastling_kw_some b k rp hw hk hkt hgr]
      constructor
      · intro h
        rw [Bool.and_eq_true] at h
        obtain ⟨hC, hL⟩ := h
        split_ifs at hC with h1 h2 h3
        refine ⟨rp, rfl, h1.1, h1.2, by rw [Bool.eq_false_iff]; exact h2, ?_, ?_, ?_, hL⟩
        · have := (List.any_eq_false.mp (Bool.eq_false_iff.mpr h3)) 5 (by simp)
          simpa [Board.get, Square.empty, Option.isNone_iff_eq_none] using this
        · have := (List.any_eq_false.mp (Bool.eq_false_iff.mpr h3)) 6 (by simp)
          simpa [Board.get, Square.empty, Option.isNone_iff_eq_none] using this
        · rw [Bool.not_eq_true'] at hC
          exact hC
      · rintro ⟨rp', hrp', h1, h2, h3, h4, h5, h6, h7⟩
        rw [Option.some.injEq] at hrp'
        subst hrp'
        rw [Bool.and_eq_true]
        refine ⟨?_, h7⟩
        have hcorr : ([5, 6].any fun f => !(b.get f 0).empty) = false := by
          simp [Board.get, Square.empty, h4, h5]
        rw [if_neg (not_not_intro ⟨h1, h2⟩), if_neg (by rw [h3]; simp),
          if_neg (by rw [hcorr]; simp), h6]
        rfl
  · have hep : isEnPassant b 4 0 6 0 = false := by
      unfold isEnPassant
      simp only [hk]
      simp [hkt]
    have hpr : isPromotion b 4 0 6 0 = false := by
      unfold isPromotion
      simp only [hk]
      simp [hkt]
    have hcs : isCastlingShape b 4 0 6 0 = true := by
      unfold isCastlingShape isCastling
      simp only [hk]
      simp [hkt]
    unfold commitMove
    rw [hep, hpr, hcs]
    rcases hocc : b.grid 6 0 with _ | tp
    · simp only [hocc, Bool.false_eq_true, if_false, if_true, Board.get,
        Bool.true_eq_false, false_and, Option.isNone_none]
      cases hcm : checkmateSquare _ <;>
        exact ⟨_, rfl, by simp [addMove_grid, setMoves_grid, setPiecePoints_grid,
          addCapture_grid, Board.setPiece, FILES, hocc]⟩
    · simp only [hocc, Bool.false_eq_true, if_false, if_true, Board.get,
        Bool.true_eq_false, false_and, Option.isNone_none]
      by_cases hcap : tp.colour ≠ b.turn <;>
        [simp only [if_pos hcap]; simp only [if_neg hcap]] <;>
        (cases hcm : checkmateSquare _ <;>
          exact ⟨_, rfl, by simp [addMove_grid, setMoves_grid, setPiecePoints_grid,
            addCapture_grid, Board.setPiece, FILES, hocc]⟩)


/-- C3 counterexample: on `cexC3` the claim's stated conditions for
absence all fail — king and rook on their home squares with an empty
move history, f1 and g1 (the squares between them) empty and not
attacked — yet g1 is absent from the king's move list, because the code
additionally requires the king's own square e1 to be unattacked and
here the king is in check from the rook on e8. -/
theorem c3_counterexample :
    cexC3.grid 4 0 = some ⟨1, Pieces.king, Colour.white, false⟩
    ∧ cexC3.grid 7 0 = some ⟨2, Pieces.rook, Colour.white, false⟩
    ∧ cexC3.moves = []
    ∧ cexC3.grid 5 0 = none ∧ cexC3.grid 6 0 = none
    ∧ anySquareUnderAttack cexC3 [cexC3.get 5 0, cexC3.get 6 0] = false
    ∧ anySquareUnderAttack cexC3 [cexC3.get 4 0] = true
    ∧ (getKingMoves cexC3 4 0).any (fun q => decide (q.file = 6) && decide (q.rank = 0)) = false :=
  ⟨by decide, by decide, by decide, by decide, by decide, by decide, by decide, by decide⟩

theorem c3_witness :
    (getKingMoves wbC3 4 0).any (fun q => decide (q.file = 6) && decide (q.rank = 0)) = true := by
  have h := c3_kingside_castling_characterization wbC3 (by decide) (by decide)
      ⟨4, Pieces.king, Colour.white, false⟩ (by decide) rfl
  exact h.1.mpr ⟨⟨7, Pieces.rook, Colour.white, false⟩, by decide, rfl, rfl, by decide,
    by decide, by decide, by decide, by decide⟩

/-- C8 counterexample: with white knights on b1 and d2 and c3 empty, the
d2-knight cannot reach c3 (it is not a knight move), so the b1-knight's move
to c3 carries no ambiguity and `get_source_square_notation` returns the empty
source string, yielding the bare "Nc3" — not "Nbc3"/"Ndc3" as the claim states.
With the second knight on d5 instead (which does attack c3), both file and rank
differ from b1, so the code returns the full square "b1", i.e. "Nb1c3", again
not the claimed file-only disambiguation. -/
theorem c8_counterexample :
    getSourceSquareStr c8BoardD2 1 0 2 2 false = ""
    ∧ ((movesFor c8BoardD2 3 1 Pieces.knight).any fun q => decide (q = c8BoardD2.get 2 2)) = false
    ∧ getSourceSquareStr c8BoardD5 1 0 2 2 false = "b1"
    ∧ ((movesFor c8BoardD5 3 4 Pieces.knight).any fun q => decide (q = c8BoardD5.get 2 2)) = true :=
  ⟨rfl, by decide, rfl, by decide⟩

/-- C8 (amended): the actual tie-break behaviour of
`get_source_square_notation` for a white knight on b1 moving to c3, against a
second white piece elsewhere: a knight on d1 (rank coincides) gives "b"; a
knight on b5 (file coincides) gives "1"; a knight on d5 (both differ) gives the
full square "b1" even though the file alone would disambiguate; a knight on d2
(cannot reach c3) gives no qualifier at all. -/
theorem c8_disambiguation_behaviour :
    getSourceSquareStr c8BoardD1 1 0 2 2 false = "b"
    ∧ getSourceSquareStr c8BoardB5 1 0 2 2 false = "1"
    ∧ getSourceSquareStr c8BoardD5 1 0 2 2 false = "b1"
    ∧ getSourceSquareStr c8BoardD2 1 0 2 2 false = "" :=
  ⟨rfl, rfl, rfl, rfl⟩

/-- C9 (code bug): `get_square` computes the file index as `(x - left) // width`
and, when the display is reversed, re-indexes with `FILES - 1 - file`. A click
just past the right edge gives file index 8; in normal orientation this raises
`IndexError`, which is caught and turned into `None`, but in reversed
orientation the index becomes `-1`, which Python's negative indexing wraps to a
real square — so the function returns a wrong square rather than `None`. On the
position after 1.e4, the click (740, 50) with the board reversed returns the
square at file 7, rank 0 instead of `None`, while the same click unreversed
returns `None`; the derived raw file index is 8, outside [0, 8). -/
theorem c9_reversed_click_wrong_square :
    displayGetSquare 260 50 60 true afterE4 740 50 = some (afterE4.get 7 0)
    ∧ displayGetSquare 260 50 60 false afterE4 740 50 = none
    ∧ (740 - 260) / 60 = 8 :=
  ⟨rfl, rfl, rfl⟩

/-- C4 (code bug): committing the move e2-e4 on the starting board appends
exactly one record with before/after snapshots of the source and destination
squares, but the record carries only the three flags the `Move` dataclass
declares (`castling`, `en_passant`, `promotion`); `is_check`/`is_checkmate` are
not fields of the record — `DisplayBoard.make_move` passes them as keyword
arguments `is_check`/`is_checkmate`/`src_string` that `Board.add_move` does not
accept (its signature takes the four squares and the three flags only), so the
five-flag record the claim describes is never constructed. The two extra flag
slots here model the spec's claimed record and are always `false` in the
embedding of the code that actually runs. -/
theorem c4_commit_appends_one_record :
    (commitMove startBoard 4 1 4 3 none).map (fun b => b.moves)
      = some [⟨⟨4, 1, some ⟨12, Pieces.pawn, Colour.white, false⟩⟩, ⟨4, 3, none⟩,
          ⟨4, 1, none⟩, ⟨4, 3, some ⟨12, Pieces.pawn, Colour.white, false⟩⟩,
          false, false, false, false, false⟩] := rfl

/-- C5 (code bug): replaying a completed game through `PGNBoard.make_move`
does not always reproduce the final layout. On a queenside castle the replay
moves the rook from file 0 to file 4 (`self.get(4, from_square.rank)`) instead
of file 3, overwriting the square the king came from. The game
1.d4 d5 2.Bf4 Bf5 3.Nc3 Nc6 4.Qd2 Qd7 5.O-O-O is fully legal for the engine
(`movesLegal` holds), yet after replay the white rook sits on d1 in the
committed game but on e1 in the replayed one: squares d1/e1 differ between the
two final layouts. -/
theorem c5_replay_diverges_on_queenside_castle :
    movesLegal startBoard c5Game = true
    ∧ (c5Final.map fun bf =>
        let rb := bf.moves.foldl pgnMakeMove startBoard
        (layoutAt bf 3 0, layoutAt rb 3 0, layoutAt bf 4 0, layoutAt rb 4 0))
      = some (some (Pieces.rook, Colour.white), none, none, some (Pieces.rook, Colour.white)) :=
  ⟨by decide, rfl⟩

theorem cntPieces_cons (b : Board) (c : Colour) (k : Pieces) (fr : Nat × Nat)
    (rest : List (Nat × Nat)) :
    cntPieces b c k (fr :: rest)
      = cntPieces b c k rest + (match b.grid fr.1 fr.2 with
          | some p => if p.colour = c ∧ p.type = k then 1 else 0
          | none => 0) := by
  unfold cntPieces
  rw [List.filter_cons]
  rcases hg : b.grid fr.1 fr.2 with _ | p
  · simp [hg]
  · by_cases h : p.colour = c ∧ p.type = k
    · simp [hg, h]
    · simp [hg, h]

theorem lastBishop_cons (b : Board) (c : Colour) (fr : Nat × Nat)
    (rest : List (Nat × Nat)) (acc : Option (Nat × Nat)) :
    lastBishop b c (fr :: rest) acc
      = lastBishop b c rest (match b.grid fr.1 fr.2 with
          | some p => if p.colour = c ∧ p.type = Pieces.bishop then some fr else acc
          | none => acc) := rfl

theorem collectMat_eq (b : Board) (c : Colour) (L : List (Nat × Nat))
    (hnoprq : ∀ fr ∈ L, ¬prqAt b c fr) :
    ∀ (counts : Pieces → Nat) (bsq : Option (Nat × Nat)),
    ∃ pr, collectMat b c L counts bsq = some pr
      ∧ (∀ t, pr.1 t = counts t + cntPieces b c t L)
      ∧ pr.2 = lastBishop b c L bsq := by
  induction L with
  | nil =>
    intro counts bsq
    exact ⟨(counts, bsq), rfl, fun t => by simp [cntPieces], rfl⟩
  | cons fr rest ih =>
    intro counts bsq
    have htail : ∀ x ∈ rest, ¬prqAt b c x := fun x hx => hnoprq x (List.mem_cons_of_mem fr hx)
    rcases hg : b.grid fr.1 fr.2 with _ | p
    · obtain ⟨pr, h1, h2, h3⟩ := ih htail counts bsq
      refine ⟨pr, ?_, ?_, ?_⟩
      · simp only [collectMat, hg]
        exact h1
      · intro t
        rw [h2 t, cntPieces_cons, hg]
        simp
      · rw [h3, lastBishop_cons, hg]
    · by_cases hc : p.colour = c
      · have hprq : ¬(p.type = Pieces.pawn ∨ p.type = Pieces.rook ∨ p.type = Pieces.queen) :=
          fun h => hnoprq fr (List.mem_cons_self fr rest) ⟨p, hg, hc, h⟩
        obtain ⟨pr, h1, h2, h3⟩ := ih htail
          (fun t => if t = p.type then counts t + 1 else counts t)
          (if p.type = Pieces.bishop then some fr else bsq)
        refine ⟨pr, ?_, ?_, ?_⟩
        · simp only [collectMat, hg, if_pos hc, if_neg hprq]
          exact h1
        · intro t
          rw [h2 t, cntPieces_cons, hg]
          by_cases htp : t = p.type
          · subst htp
            simp [hc]
            omega
          · have hneq : ¬(p.colour = c ∧ p.type = t) := fun h => htp h.2.symm
            simp [htp, hneq]
        · rw [h3, lastBishop_cons, hg]
          by_cases hb : p.type = Pieces.bishop <;> simp [hb, hc]
      · obtain ⟨pr, h1, h2, h3⟩ := ih htail counts bsq
        refine ⟨pr, ?_, ?_, ?_⟩
        · simp only [collectMat, hg, if_neg hc]
          exact h1
        · intro t
          rw [h2 t, cntPieces_cons, hg]
          have hneq : ¬(p.colour = c ∧ p.type = t) := fun h => hc h.1
          simp [hneq]
        · rw [h3, lastBishop_cons, hg]
          have hneq : ¬(p.colour = c ∧ p.type = Pieces.bishop) := fun h => hc h.1
          simp [hneq]

theorem collectMat_none (b : Board) (c : Colour) (L : List (Nat × Nat))
    (h : ∃ fr ∈ L, prqAt b c fr) :
    ∀ (counts : Pieces → Nat) (bsq : Option (Nat × Nat)),
      collectMat b c L counts bsq = none := by
  induction L with
  | nil => simp at h
  | cons fr rest ih =>
    intro counts bsq
    obtain ⟨x, hx, hprq⟩ := h
    rcases List.mem_cons.mp hx with rfl | hxr
    · obtain ⟨p, hg, hcol, htype⟩ := hprq
      simp only [collectMat, hg, if_pos hcol, if_pos htype]
    · rcases hg : b.grid fr.1 fr.2 with _ | p
      · simp only [collectMat, hg]
        exact ih ⟨x, hxr, hprq⟩ counts bsq
      · by_cases hc : p.colour = c
        · by_cases hp : p.type = Pieces.pawn ∨ p.type = Pieces.rook ∨ p.type = Pieces.queen
          · simp only [collectMat, hg, if_pos hc, if_pos hp]
          · simp only [collectMat, hg, if_pos hc, if_neg hp]
            exact ih ⟨x, hxr, hprq⟩ _ _
        · simp only [collectMat, hg, if_neg hc]
          exact ih ⟨x, hxr, hprq⟩ counts bsq


theorem lastBishop_keeps (b : Board) (c : Colour) (L : List (Nat × Nat)) :
    ∀ (acc : Option (Nat × Nat)) (x : Nat × Nat), acc = some x → bishopAt b c x →
      ∃ y, lastBishop b c L acc = some y ∧ bishopAt b c y ∧ (y ∈ L ∨ y = x) := by
  induction L with
  | nil =>
    intro acc x hacc hx
    exact ⟨x, by rw [hacc]; rfl, hx, Or.inr rfl⟩
  | cons fr rest ih =>
    intro acc x hacc hx
    rw [lastBishop_cons]
    rcases hg : b.grid fr.1 fr.2 with _ | p <;> simp only [hg]
    · obtain ⟨y, h1, h2, h3⟩ := ih acc x hacc hx
      exact ⟨y, h1, h2, h3.imp (List.mem_cons_of_mem fr) id⟩
    · by_cases h : p.colour = c ∧ p.type = Pieces.bishop
      · rw [if_pos h]
        obtain ⟨y, h1, h2, h3⟩ := ih (some fr) fr rfl ⟨p, hg, h.1, h.2⟩
        refine ⟨y, h1, h2, Or.inl ?_⟩
        rcases h3 with h3 | h3
        · exact List.mem_cons_of_mem fr h3
        · rw [h3]
          exact List.mem_cons_self fr rest
      · rw [if_neg h]
        obtain ⟨y, h1, h2, h3⟩ := ih acc x hacc hx
        exact ⟨y, h1, h2, h3.imp (List.mem_cons_of_mem fr) id⟩

theorem lastBishop_finds (b : Board) (c : Colour) (L : List (Nat × Nat)) :
    ∀ (acc : Option (Nat × Nat)), (∃ fr ∈ L, bishopAt b c fr) →
      ∃ y, lastBishop b c L acc = some y ∧ bishopAt b c y ∧ y ∈ L := by
  induction L with
  | nil =>
    intro acc h
    simp at h
  | cons fr rest ih =>
    intro acc h
    rw [lastBishop_cons]
    obtain ⟨x, hx, hbx⟩ := h
    rcases List.mem_cons.mp hx with rfl | hxr
    · obtain ⟨p, hg, hcol, htype⟩ := hbx
      simp only [hg, if_pos (And.intro hcol htype)]
      obtain ⟨y, h1, h2, h3⟩ :=
        lastBishop_keeps b c rest (some x) x rfl ⟨p, hg, hcol, htype⟩
      refine ⟨y, h1, h2, ?_⟩
      rcases h3 with h3 | h3
      · exact List.mem_cons_of_mem x h3
      · rw [h3]
        exact List.mem_cons_self x rest
    · rcases hg : b.grid fr.1 fr.2 with _ | p <;> simp only [hg]
      · obtain ⟨y, h1, h2, h3⟩ := ih acc ⟨x, hxr, hbx⟩
        exact ⟨y, h1, h2, List.mem_cons_of_mem fr h3⟩
      · by_cases hh : p.colour = c ∧ p.type = Pieces.bishop
        · rw [if_pos hh]
          obtain ⟨y, h1, h2, h3⟩ :=
            lastBishop_keeps b c rest (some fr) fr rfl ⟨p, hg, hh.1, hh.2⟩
          refine ⟨y, h1, h2, ?_⟩
          rcases h3 with h3 | h3
          · exact List.mem_cons_of_mem fr h3
          · rw [h3]
            exact List.mem_cons_self fr rest
        · rw [if_neg hh]
          obtain ⟨y, h1, h2, h3⟩ := ih acc ⟨x, hxr, hbx⟩
          exact ⟨y, h1, h2, List.mem_cons_of_mem fr h3⟩

theorem cntPieces_zero (b : Board) (c : Colour) (k : Pieces) (L : List (Nat × Nat))
    (h : cntPieces b c k L = 0) :
    ∀ fr ∈ L, ∀ p, b.grid fr.1 fr.2 = some p → p.colour = c → p.type ≠ k := by
  intro fr hfr p hg hc hk
  unfold cntPieces at h
  rw [List.length_eq_zero] at h
  have : fr ∈ List.filter (fun fr =>
      match b.grid fr.1 fr.2 with
      | some p => decide (p.colour = c ∧ p.type = k)
      | none => false) L := by
    rw [List.mem_filter]
    exact ⟨hfr, by simp [hg, hc, hk]⟩
  rw [h] at this
  simp at this

theorem cntPieces_pos (b : Board) (c : Colour) (k : Pieces) (L : List (Nat × Nat))
    (h : cntPieces b c k L ≠ 0) :
    ∃ fr ∈ L, ∃ p, b.grid fr.1 fr.2 = some p ∧ p.colour = c ∧ p.type = k := by
  unfold cntPieces at h
  rcases hf : List.filter (fun fr =>
      match b.grid fr.1 fr.2 with
      | some p => decide (p.colour = c ∧ p.type = k)
      | none => false) L with _ | ⟨x, rest⟩
  · rw [hf] at h
    simp at h
  · have hx : x ∈ List.filter (fun fr =>
        match b.grid fr.1 fr.2 with
        | some p => decide (p.colour = c ∧ p.type = k)
        | none => false) L := by rw [hf]; exact List.mem_cons_self x rest
    rw [List.mem_filter] at hx
    refine ⟨x, hx.1, ?_⟩
    have := hx.2
    rcases hg : b.grid x.1 x.2 with _ | p
    · rw [hg] at this
      simp at this
    · rw [hg] at this
      simp only [decide_eq_true_eq] at this
      exact ⟨p, rfl, this.1, this.2⟩

theorem iterSquares_mem (f r : Nat) (hf : f < FILES) (hr : r < RANKS) :
    (f, r) ∈ iterSquares := by
  simp only [iterSquares, List.mem_flatMap, List.mem_map, List.mem_range]
  exact ⟨f, hf, r, hr, rfl⟩

theorem iterSquares_lt (fr : Nat × Nat) (h : fr ∈ iterSquares) :
    fr.1 < FILES ∧ fr.2 < RANKS := by
  simp only [iterSquares, List.mem_flatMap, List.mem_map, List.mem_range] at h
  obtain ⟨f, hf, r, hr, rfl⟩ := h
  exact ⟨hf, hr⟩

theorem collect_full (b : Board) (c : Colour)
    (hp : pieceCount b c Pieces.pawn = 0) (hr : pieceCount b c Pieces.rook = 0)
    (hq : pieceCount b c Pieces.queen = 0) :
    ∃ pr, collectMat b c iterSquares (fun _ => 0) none = some pr
      ∧ (∀ t, pr.1 t = pieceCount b c t)
      ∧ pr.2 = lastBishop b c iterSquares none := by
  have hnoprq : ∀ fr ∈ iterSquares, ¬prqAt b c fr := by
    rintro fr hfr ⟨p, hg, hcol, htype⟩
    rcases htype with h | h | h
    · exact cntPieces_zero b c Pieces.pawn iterSquares hp fr hfr p hg hcol h
    · exact cntPieces_zero b c Pieces.rook iterSquares hr fr hfr p hg hcol h
    · exact cntPieces_zero b c Pieces.queen iterSquares hq fr hfr p hg hcol h
  obtain ⟨pr, h1, h2, h3⟩ := collectMat_eq b c iterSquares hnoprq (fun _ => 0) none
  exact ⟨pr, h1, fun t => by rw [h2 t, Nat.zero_add]; rfl, h3⟩



theorem bishopsParity_spec (b : Board) (c : Colour) (d : Bool)
    (h : bishopsParity b c d = true) :
    ∀ fr ∈ iterSquares, ∀ p, b.grid fr.1 fr.2 = some p → p.colour = c →
      p.type = Pieces.bishop → decide (fr.1 % 2 = fr.2 % 2) = d := by
  intro fr hfr p hg hc ht
  have hall := List.all_eq_true.mp h fr hfr
  simp only [hg] at hall
  rw [if_pos (And.intro hc ht)] at hall
  exact of_decide_eq_true hall

/-- C6: `is_insufficient_material` is true for king versus king, for
king plus one knight (or one bishop) versus king, and for one bishop
each on same-coloured squares; it is false whenever a pawn, rook or
queen is on the board, and false for one bishop each on
opposite-coloured squares. -/
theorem c6_insufficient_material_cases :
    (∀ b : Board, materialIs b Colour.white 0 0 0 0 0 1 →
      materialIs b Colour.black 0 0 0 0 0 1 → isInsufficientMaterial b = true)
    ∧ (∀ (b : Board) (c : Colour), materialIs b c 0 1 0 0 0 1 →
        materialIs b c.opponent 0 0 0 0 0 1 → isInsufficientMaterial b = true)
    ∧ (∀ (b : Board) (c : Colour), materialIs b c 0 0 1 0 0 1 →
        materialIs b c.opponent 0 0 0 0 0 1 → isInsufficientMaterial b = true)
    ∧ (∀ (b : Board) (dw db : Bool),
        materialIs b Colour.white 0 0 1 0 0 1 → materialIs b Colour.black 0 0 1 0 0 1 →
        bishopsParity b Colour.white dw = true → bishopsParity b Colour.black db = true →
        (dw = db → isInsufficientMaterial b = true)
        ∧ (dw ≠ db → isInsufficientMaterial b = false))
    ∧ (∀ (b : Board) (f r : Nat) (p : Piece), f < FILES → r < RANKS →
        b.grid f r = some p →
        (p.type = Pieces.pawn ∨ p.type = Pieces.rook ∨ p.type = Pieces.queen) →
        isInsufficientMaterial b = false) := by
  refine ⟨?_, ?_, ?_, ?_, ?_⟩
  · rintro b ⟨wp, wn, wb, wr, wq, wk⟩ ⟨bp, bn, bb, br, bq, bk⟩
    obtain ⟨prW, hW, h2W, _⟩ := collect_full b Colour.white wp wr wq
    obtain ⟨prB, hB, h2B, _⟩ := collect_full b Colour.black bp br bq
    have htw : totalPieces prW.1 = 1 := by
      simp [totalPieces, h2W, wp, wn, wb, wr, wq, wk]
    have htb : totalPieces prB.1 = 1 := by
      simp [totalPieces, h2B, bp, bn, bb, br, bq, bk]
    simp [isInsufficientMaterial, hW, hB, insuffColourCheck, htw, htb]
  · rintro b c ⟨cp, cn, cb, cr, cq, ck⟩ ⟨op2, on2, ob2, or2, oq2, ok2⟩
    obtain ⟨prC, hC, h2C, _⟩ := collect_full b c cp cr cq
    obtain ⟨prO, hO, h2O, _⟩ := collect_full b c.opponent op2 or2 oq2
    have htc : totalPieces prC.1 = 2 := by
      simp [totalPieces, h2C, cp, cn, cb, cr, cq, ck]
    have hto : totalPieces prO.1 = 1 := by
      simp [totalPieces, h2O, op2, on2, ob2, or2, oq2, ok2]
    cases c
    · simp only [Colour.opponent] at hO
      simp [isInsufficientMaterial, hC, hO, insuffColourCheck, htc, hto]
    · simp only [Colour.opponent] at hO
      simp [isInsufficientMaterial, hC, hO, insuffColourCheck, htc, hto]
  · rintro b c ⟨cp, cn, cb, cr, cq, ck⟩ ⟨op2, on2, ob2, or2, oq2, ok2⟩
    obtain ⟨prC, hC, h2C, _⟩ := collect_full b c cp cr cq
    obtain ⟨prO, hO, h2O, _⟩ := collect_full b c.opponent op2 or2 oq2
    have htc : totalPieces prC.1 = 2 := by
      simp [totalPieces, h2C, cp, cn, cb, cr, cq, ck]
    have hto : totalPieces prO.1 = 1 := by
      simp [totalPieces, h2O, op2, on2, ob2, or2, oq2, ok2]
    cases c
    · simp only [Colour.opponent] at hO
      simp [isInsufficientMaterial, hC, hO, insuffColourCheck, htc, hto]
    · simp only [Colour.opponent] at hO
      simp [isInsufficientMaterial, hC, hO, insuffColourCheck, htc, hto]
  · rintro b dw db ⟨wp, wn, wb, wr, wq, wk⟩ ⟨bp, bn, bb, br, bq, bk⟩ hdw hdb
    obtain ⟨prW, hW, h2W, h3W⟩ := collect_full b Colour.white wp wr wq
    obtain ⟨prB, hB, h2B, h3B⟩ := collect_full b Colour.black bp br bq
    have htw : totalPieces prW.1 = 2 := by
      simp [totalPieces, h2W, wp, wn, wb, wr, wq, wk]
    have htb : totalPieces prB.1 = 2 := by
      simp [totalPieces, h2B, bp, bn, bb, br, bq, bk]
    have hbw : prW.1 Pieces.bishop = 1 := by rw [h2W]; exact wb
    have hbb : prB.1 Pieces.bishop = 1 := by rw [h2B]; exact bb
    have hexw : ∃ fr ∈ iterSquares, bishopAt b Colour.white fr := by
      obtain ⟨fr, hfr, p, hg, hc2, ht⟩ := cntPieces_pos b Colour.white Pieces.bishop iterSquares
        (by rw [show cntPieces b Colour.white Pieces.bishop iterSquares
            = pieceCount b Colour.white Pieces.bishop from rfl, wb]; omega)
      exact ⟨fr, hfr, p, hg, hc2, ht⟩
    have hexb : ∃ fr ∈ iterSquares, bishopAt b Colour.black fr := by
      obtain ⟨fr, hfr, p, hg, hc2, ht⟩ := cntPieces_pos b Colour.black Pieces.bishop iterSquares
        (by rw [show cntPieces b Colour.black Pieces.bishop iterSquares
            = pieceCount b Colour.black Pieces.bishop from rfl, bb]; omega)
      exact ⟨fr, hfr, p, hg, hc2, ht⟩
    obtain ⟨xw, hxw, hbaw, hmemw⟩ := lastBishop_finds b Colour.white iterSquares none hexw
    obtain ⟨xb, hxb, hbab, hmemb⟩ := lastBishop_finds b Colour.black iterSquares none hexb
    have hW2 : prW.2 = some xw := by rw [h3W, hxw]
    have hB2 : prB.2 = some xb := by rw [h3B, hxb]
    have hpw : decide (xw.1 % 2 = xw.2 % 2) = dw := by
      obtain ⟨p, hg, hc2, ht⟩ := hbaw
      exact bishopsParity_spec b Colour.white dw hdw xw hmemw p hg hc2 ht
    have hpb : decide (xb.1 % 2 = xb.2 % 2) = db := by
      obtain ⟨p, hg, hc2, ht⟩ := hbab
      exact bishopsParity_spec b Colour.black db hdb xb hmemb p hg hc2 ht
    have hsbc : sameBishopColour prW.2 prB.2 = decide (dw = db) := by
      rw [hW2, hB2]
      show decide (decide (xw.1 % 2 = xw.2 % 2) = decide (xb.1 % 2 = xb.2 % 2))
        = decide (dw = db)
      rw [hpw, hpb]
    constructor
    · intro hsame
      have : sameBishopColour prW.2 prB.2 = true := by
        rw [hsbc, hsame]
        simp
      simp [isInsufficientMaterial, hW, hB, insuffColourCheck, htw, htb, hbw, hbb, this]
    · intro hdiff
      have : sameBishopColour prW.2 prB.2 = false := by
        rw [hsbc]
        simpa using hdiff
      simp [isInsufficientMaterial, hW, hB, insuffColourCheck, htw, htb, hbw, hbb, this]
  · rintro b f r p hf hr2 hg htype
    have hprq : prqAt b p.colour (f, r) := ⟨p, hg, rfl, htype⟩
    have hmem : (f, r) ∈ iterSquares := iterSquares_mem f r hf hr2
    cases hcol : p.colour
    · have hnone := collectMat_none b Colour.white iterSquares
        ⟨(f, r), hmem, by rw [← hcol]; exact hprq⟩ (fun _ => 0) none
      simp [isInsufficientMaterial, hnone]
    · have hnone := collectMat_none b Colour.black iterSquares
        ⟨(f, r), hmem, by rw [← hcol]; exact hprq⟩ (fun _ => 0) none
      rcases hw : collectMat b Colour.white iterSquares (fun _ => 0) none with _ | prW
      · simp [isInsufficientMaterial, hw]
      · simp [isInsufficientMaterial, hw, hnone]

/-- Closed-form check of the C6 theorem on six concrete boards: bare kings,
king+knight, king+bishop, same-coloured bishops, opposite-coloured bishops,
and a board with a pawn. -/
theorem c6_witness :
    isInsufficientMaterial c6KK = true ∧ isInsufficientMaterial c6KN = true
    ∧ isInsufficientMaterial c6KB = true ∧ isInsufficientMaterial c6BBsame = true
    ∧ isInsufficientMaterial c6BBopp = false ∧ isInsufficientMaterial c6Pawn = false := by
  have h := c6_insufficient_material_cases
  refine ⟨h.1 c6KK ⟨by decide, by decide, by decide, by decide, by decide, by decide⟩
      ⟨by decide, by decide, by decide, by decide, by decide, by decide⟩,
    h.2.1 c6KN Colour.white ⟨by decide, by decide, by decide, by decide, by decide, by decide⟩
      ⟨by decide, by decide, by decide, by decide, by decide, by decide⟩,
    h.2.2.1 c6KB Colour.white ⟨by decide, by decide, by decide, by decide, by decide, by decide⟩
      ⟨by decide, by decide, by decide, by decide, by decide, by decide⟩,
    (h.2.2.2.1 c6BBsame true true ⟨by decide, by decide, by decide, by decide, by decide, by decide⟩
      ⟨by decide, by decide, by decide, by decide, by decide, by decide⟩
      (by decide) (by decide)).1 rfl,
    (h.2.2.2.1 c6BBopp true false ⟨by decide, by decide, by decide, by decide, by decide, by decide⟩
      ⟨by decide, by decide, by decide, by decide, by decide, by decide⟩
      (by decide) (by decide)).2 (by decide),
    h.2.2.2.2 c6Pawn 3 3 ⟨3, Pieces.pawn, Colour.black, false⟩
      (by decide) (by decide) (by decide) (Or.inl rfl)⟩

end PyChess
